import Mathlib

/-!
Verification of the workout-tracker application core (app.js).

The JavaScript source is shallowly embedded:
* JS numbers are modelled as rationals; optional numeric fields
  (which the code stores as a number or `null`) are `Option ℚ`.
* ISO-8601 timestamps are modelled as integer epoch milliseconds
  (the spec notes that lexicographic order on the ISO strings agrees
  with chronological order, i.e. with the numeric order used here).
* The JS idiom `x || y` on numbers (used pervasively in app.js) treats
  both `null`/`undefined` and `0` as falsy; `jsOrNull` / the explicit
  matches below reproduce that.
* Mutation of the global `data` / `currentSession` state is modelled
  as a step function on an explicit `AppState`.
* For the storage and import layers, which operate on arbitrary JSON,
  a `JSValue` type models parsed JSON documents together with the
  JS property-access semantics (`undefined` results, TypeError on
  nullish bases, silent no-op assignment to properties of primitives
  in sloppy mode).
-/

namespace WorkoutTracker

/-- JS `v || null` on an optional number: `0`, `NaN` (modelled as `none`
    after a failed parse) and `null` are falsy and give `null`. -/
def jsOrNull (v : Option ℚ) : Option ℚ :=
  match v with
  | some x => if x = 0 then none else some x
  | none => none

/-- A set record, as pushed by `addSetToExercise` in app.js:
    `{ ex, set, plannedReps, reps, load, rpe, restSec, done }`. -/
structure SetRec where
  ex : String
  set : ℕ
  plannedReps : Option ℚ
  reps : Option ℚ
  load : Option ℚ
  rpe : Option ℚ
  restSec : Option ℚ
  done : Bool
deriving DecidableEq

instance : Inhabited SetRec :=
  ⟨{ ex := "", set := 0, plannedReps := none, reps := none, load := none,
     rpe := none, restSec := none, done := false }⟩

/-- A workout (and also an in-progress session, which in app.js is the
    same object shape with `endedAt` still `null`). -/
structure Workout where
  startedAt : ℤ
  endedAt : Option ℤ
  notes : String
  unit : String
  sets : List SetRec
deriving DecidableEq

/-- An exercise-library entry `{ name, tags }`. -/
structure Exercise where
  name : String
  tags : List String
deriving DecidableEq

/-- JS object insertion order is observable (`Object.entries`), so the
    exercise and workout maps are modelled as insertion-ordered
    association lists. -/
structure Profile where
  exercises : List (String × Exercise)
  workouts : List (ℤ × Workout)
deriving DecidableEq

/-- The mutable application state: the active profile
    (`data.profiles[profileId]`) and `currentSession`. -/
structure AppState where
  profile : Profile
  session : Option Workout
deriving DecidableEq

/-- JS object-key assignment `o[k] = v` on an association list: an
    existing key keeps its position, a new key is appended. -/
def setEntry {α β : Type} [DecidableEq α] : List (α × β) → α → β → List (α × β)
  | [], k, v => [(k, v)]
  | p :: t, k, v => if p.1 = k then (k, v) :: t else p :: setEntry t k v

/-! ## Metric calculator (createHistoryView / showWorkoutDetail) -/

/-- Per-set volume, `s.reps && s.load ? s.reps * s.load : 0` —
    the `&&` is a JS truthiness test, so a present-but-zero operand
    takes the `0` branch. -/
def setVolume (s : SetRec) : ℚ :=
  match s.reps, s.load with
  | some r, some l => if r = 0 ∨ l = 0 then 0 else r * l
  | _, _ => 0

/-- Per-set estimated one-rep max from showWorkoutDetail:
    `if (s.reps && s.load) return s.load * (1 + s.reps / 30); return null`. -/
def estimatedOneRepMax (s : SetRec) : Option ℚ :=
  match s.reps, s.load with
  | some r, some l => if r = 0 ∨ l = 0 then none else some (l * (1 + r / 30))
  | _, _ => none

/-- Workout volume: `w.sets.reduce((sum, s) => sum + setVolume(s), 0)`. -/
def workoutVolume (w : Workout) : ℚ :=
  w.sets.foldl (fun acc s => acc + setVolume s) 0

/-- Rounding to one decimal place, modelling `Number.prototype.toFixed(1)`
    on the exactly-represented rational value. -/
def round1 (x : ℚ) : ℚ :=
  (round (10 * x) : ℤ) / 10

/-- Workout duration from createHistoryView / showWorkoutDetail:
    `w.endedAt ? ((new Date(w.endedAt) - new Date(w.startedAt)) / 60000).toFixed(1) : '-'`;
    the `'-'` placeholder is modelled as `none`. -/
def workoutDuration (w : Workout) : Option ℚ :=
  match w.endedAt with
  | some e => some (round1 (((e : ℚ) - (w.startedAt : ℚ)) / 60000))
  | none => none

/-! ## History query (createHomeView) -/

/-- Recent-workouts query from createHomeView:
    `Object.entries(workouts).sort((a, b) => new Date(b[0]) - new Date(a[0])).slice(0, n)`.
    JS `Array.prototype.sort` with a comparator is a stable sort placing
    `a` before `b` when the comparator is nonpositive, i.e. it sorts the
    entries descending by key; `mergeSort` with that relation models it. -/
def byKeyDesc (a b : ℤ × Workout) : Bool :=
  decide (b.1 ≤ a.1)

def listRecent (ws : List (ℤ × Workout)) (n : ℕ) : List (ℤ × Workout) :=
  (ws.mergeSort byKeyDesc).take n

/-! ## Session lifecycle (startNewSession, addExerciseFlow, addSetToExercise,
      createSetRow input handlers, finishSession, cancel) -/

/-- Digits-to-number helper for the numeric input parsers. -/
def digitsToNat (cs : List Char) : ℕ :=
  cs.foldl (fun a c => 10 * a + (c.toNat - 48)) 0

/-- JS `parseInt` on the decimal strings a number input produces: skip
    leading whitespace, optional sign, then leading digits (ignoring any
    trailing characters); no digits gives NaN, modelled as `none`. -/
def parseIntJS (s : String) : Option ℚ :=
  let cs := s.toList.dropWhile Char.isWhitespace
  let signAndRest : Bool × List Char :=
    match cs with
    | '-' :: t => (true, t)
    | '+' :: t => (false, t)
    | _ => (false, cs)
  let ds := signAndRest.2.takeWhile Char.isDigit
  if ds.isEmpty then none
  else some (if signAndRest.1 then -(digitsToNat ds : ℚ) else (digitsToNat ds : ℚ))

/-- JS `parseFloat` on decimal strings: like `parseIntJS` but also taking
    an optional fractional part. -/
def parseFloatJS (s : String) : Option ℚ :=
  let cs := s.toList.dropWhile Char.isWhitespace
  let signAndRest : Bool × List Char :=
    match cs with
    | '-' :: t => (true, t)
    | '+' :: t => (false, t)
    | _ => (false, cs)
  let ds := signAndRest.2.takeWhile Char.isDigit
  let frac : List Char :=
    match signAndRest.2.drop ds.length with
    | '.' :: t => t.takeWhile Char.isDigit
    | _ => []
  if ds.isEmpty ∧ frac.isEmpty then none
  else
    let mag : ℚ :=
      if frac.isEmpty then (digitsToNat ds : ℚ)
      else (digitsToNat ds : ℚ) + (digitsToNat frac : ℚ) / ((10 ^ frac.length : ℕ) : ℚ)
    some (if signAndRest.1 then -mag else mag)

/-- The five editable numeric fields of a set row. -/
inductive FieldId
  | plannedReps
  | reps
  | load
  | rpe
  | restSec
deriving DecidableEq

/-- Which parser a given input uses in createSetRow (`parseInt` for the
    integer fields, `parseFloat` for load and RPE), followed by the
    `|| null` coercion. -/
def parseField (f : FieldId) (input : String) : Option ℚ :=
  match f with
  | .plannedReps => jsOrNull (parseIntJS input)
  | .reps => jsOrNull (parseIntJS input)
  | .restSec => jsOrNull (parseIntJS input)
  | .load => jsOrNull (parseFloatJS input)
  | .rpe => jsOrNull (parseFloatJS input)

/-- Store a value into the given field of a set. -/
def setFieldVal (s : SetRec) (f : FieldId) (v : Option ℚ) : SetRec :=
  match f with
  | .plannedReps => { s with plannedReps := v }
  | .reps => { s with reps := v }
  | .load => { s with load := v }
  | .rpe => { s with rpe := v }
  | .restSec => { s with restSec := v }

/-- Read the given field of a set. -/
def fieldGet (f : FieldId) (s : SetRec) : Option ℚ :=
  match f with
  | .plannedReps => s.plannedReps
  | .reps => s.reps
  | .load => s.load
  | .rpe => s.rpe
  | .restSec => s.restSec

/-- One createSetRow input handler firing on the i-th set of the session:
    `set.field = parseX(input.value) || null`. -/
def updateSetField (sess : Workout) (i : ℕ) (f : FieldId) (input : String) : Workout :=
  match sess.sets.get? i with
  | some s => { sess with sets := sess.sets.set i (setFieldVal s f (parseField f input)) }
  | none => sess

/-- The done-checkbox handler on the i-th set: `set.done = checked`
    (the rest-timer side effect has no model state). -/
def markDone (sess : Workout) (i : ℕ) (d : Bool) : Workout :=
  match sess.sets.get? i with
  | some s => { sess with sets := sess.sets.set i { s with done := d } }
  | none => sess

/-- JS `last.restSec || 60`: the prior value when present and non-zero,
    else the 60-second default. -/
def restOrDefault (o : Option ℚ) : ℚ :=
  match o with
  | some x => if x = 0 then 60 else x
  | none => 60

/-- addSetToExercise from app.js: filter the session's sets to this
    exercise, take the last one (or `{}`), and push a new set built with
    the `||` default-fill idiom. -/
def addSetToExercise (sess : Workout) (exId : String) : Workout :=
  let exSets := sess.sets.filter (fun s => s.ex == exId)
  let last := exSets.getLast?
  let newSet : SetRec :=
    { ex := exId
      set := exSets.length + 1
      plannedReps := jsOrNull (last.bind SetRec.plannedReps)
      reps := none
      load := jsOrNull (last.bind SetRec.load)
      rpe := none
      restSec := some (restOrDefault (last.bind SetRec.restSec))
      done := false }
  { sess with sets := sess.sets ++ [newSet] }

/-- Exercise-name normalisation from addExerciseFlow:
    `exName.toLowerCase().replace(/\s+/g, '-')`; the flag tracks whether
    the previous character was part of a whitespace run. -/
def collapseWsAux : Bool → List Char → List Char
  | _, [] => []
  | prevWs, c :: t =>
    if c.isWhitespace then
      if prevWs then collapseWsAux true t else '-' :: collapseWsAux true t
    else c :: collapseWsAux false t

def normalizeId (s : String) : String :=
  String.mk (collapseWsAux false s.toLower.toList)

/-- startNewSession's fresh session object. -/
def newSession (now : ℤ) : Workout :=
  { startedAt := now, endedAt := none, notes := "", unit := "kg", sets := [] }

/-- The user-driven lifecycle operations (UI event handlers). -/
inductive Op
  | start (now : ℤ)
  | addExercise (name : String)
  | addSet (exId : String)
  | updateField (i : ℕ) (f : FieldId) (input : String)
  | mark (i : ℕ) (d : Bool)
  | finish (now : ℤ)
  | cancel
deriving DecidableEq

/-- One lifecycle step. Handlers that dereference `currentSession` while
    it is `null` throw in JS before touching any further state; the
    observable state after such a throw is what the branch returns here
    (in particular addExerciseFlow registers the exercise in the library
    before the dereference, so that registration survives). -/
def step (st : AppState) (op : Op) : AppState :=
  match op with
  | .start now => { st with session := some (newSession now) }
  | .addExercise name =>
    if name = "" then st
    else
      let id := normalizeId name
      let prof :=
        if st.profile.exercises.any (fun p => p.1 == id) then st.profile
        else { st.profile with
               exercises := st.profile.exercises ++ [(id, { name := name, tags := [] })] }
      match st.session with
      | some sess => { profile := prof, session := some (addSetToExercise sess id) }
      | none => { st with profile := prof }
  | .addSet exId =>
    match st.session with
    | some sess => { st with session := some (addSetToExercise sess exId) }
    | none => st
  | .updateField i f input =>
    match st.session with
    | some sess => { st with session := some (updateSetField sess i f input) }
    | none => st
  | .mark i d =>
    match st.session with
    | some sess => { st with session := some (markDone sess i d) }
    | none => st
  | .finish now =>
    match st.session with
    | some sess =>
      let w := { sess with endedAt := some now }
      { profile := { st.profile with workouts := setEntry st.profile.workouts w.startedAt w }
        session := none }
    | none => st
  | .cancel => { st with session := none }

/-- The state at app start: a fresh active profile and no session. -/
def initState : AppState :=
  { profile := { exercises := [], workouts := [] }, session := none }

/-- Run a sequence of user actions from the initial state. -/
def run (ops : List Op) : AppState :=
  ops.foldl step initState

/-! ## Storage and import layers over raw JSON (loadData, the import
      change handler in createSettingsView) -/

/-- A JS value as seen by `JSON.parse` plus `undefined` (the result of a
    missing property). `NaN` never arises from parsing JSON. -/
inductive JSValue
  | undefined
  | null
  | jsBool (b : Bool)
  | num (q : ℚ)
  | str (s : String)
  | arr (elems : List JSValue)
  | obj (fields : List (String × JSValue))

/-- JS truthiness. -/
def truthyJS : JSValue → Bool
  | .undefined => false
  | .null => false
  | .jsBool b => b
  | .num q => decide (q ≠ 0)
  | .str s => s ≠ ""
  | .arr _ => true
  | .obj _ => true

/-- Property read `v[k]` on a non-nullish base: a field of an object, or
    `undefined` for a missing field or a primitive/array base (plain data
    keys such as "profiles" or "me" hit no prototype property). Reading a
    property of `null`/`undefined` throws instead, which callers below
    model separately. -/
def getField : JSValue → String → JSValue
  | .obj fields, k =>
    match fields.find? (fun p => p.1 == k) with
    | some p => p.2
    | none => .undefined
  | _, _ => .undefined

/-- The default structure from loadData: `{ profiles: {} }`. -/
def defaultRoot : JSValue := .obj [("profiles", .obj [])]

/-- The fresh profile from loadData: `{ exercises: {}, workouts: {} }`. -/
def emptyProfileJS : JSValue := .obj [("exercises", .obj []), ("workouts", .obj [])]

/-- The assignment `data.profiles[profileId] = v` in loadData. It runs
    only after `data.profiles[profileId]` was read successfully, so
    `data.profiles` is non-nullish there: an object is updated; a
    primitive base makes the assignment a silent no-op in sloppy mode
    (the array-as-object case is likewise modelled as a no-op; no claim
    exercises it). -/
def setProfilesMe (d : JSValue) (v : JSValue) : JSValue :=
  match d with
  | .obj fields =>
    match getField d "profiles" with
    | .obj pf => .obj (setEntry fields "profiles" (.obj (setEntry pf "me" v)))
    | _ => d
  | _ => d

/-- loadData from app.js operating on the parse outcome of the stored
    string: `none` models a missing key or an empty stored string (both
    fail the `if (json)` truthiness test before parsing), `some none` a
    present string on which `JSON.parse` throws (caught, `data` stays
    null), and `some (some v)` a string parsing to `v`. The result is
    `none` when loadData itself throws a TypeError (reading
    `data.profiles[profileId]` on an undefined/null `data.profiles`),
    else the resulting root. -/
def loadData (stored : Option (Option JSValue)) : Option JSValue :=
  let d0 : JSValue :=
    match stored with
    | some (some v) => v
    | _ => .null
  let d1 := if truthyJS d0 then d0 else defaultRoot
  match getField d1 "profiles" with
  | .undefined => none
  | .null => none
  | profs =>
    if truthyJS (getField profs "me") then some d1
    else some (setProfilesMe d1 emptyProfileJS)

/-- The import change handler in createSettingsView, applied to the
    current root `d` and the parse outcome of the chosen file: the whole
    body is a try/catch, so both a `JSON.parse` throw and a TypeError on
    the assignment `data.profiles[profileId] = imported` are caught and
    surfaced as the failure alert, leaving `d` unchanged. Any
    successfully parsed value is assigned with no structural validation.
    The returned flag is `true` for the success alert, `false` for the
    failure alert. -/
def importApply (d : JSValue) (parsed : Option JSValue) : JSValue × Bool :=
  match parsed with
  | none => (d, false)
  | some v =>
    match d with
    | .obj fields =>
      match getField d "profiles" with
      | .undefined => (d, false)
      | .null => (d, false)
      | .obj pf => (.obj (setEntry fields "profiles" (.obj (setEntry pf "me" v))), true)
      | _ => (d, true)
    | .null => (d, false)
    | .undefined => (d, false)
    | _ => (d, false)

/-! ## Theorems for the metric calculator (C3, C4, C5, C6) -/

/-- C4: for every set, setVolume equals reps * load when both reps and
    load are present, and equals 0 when either is absent. (When a present
    operand is zero the code's truthiness test takes the zero branch, but
    the product is also zero, so the two descriptions agree.) -/
theorem setVolume_spec (s : SetRec) :
    (∀ r l : ℚ, s.reps = some r → s.load = some l → setVolume s = r * l) ∧
    ((s.reps = none ∨ s.load = none) → setVolume s = 0) := by
  constructor
  · intro r l hr hl
    rcases eq_or_ne r 0 with h0 | h0
    · subst h0; simp [setVolume, hr, hl]
    · rcases eq_or_ne l 0 with h1 | h1
      · subst h1; simp [setVolume, hr, hl]
      · simp [setVolume, hr, hl, h0, h1]
  · intro h
    rcases h with h | h
    · cases hl : s.load <;> simp [setVolume, h, hl]
    · cases hr : s.reps <;> simp [setVolume, h, hr]

def volSetA : SetRec :=
  { ex := "squat", set := 1, plannedReps := none, reps := some 5, load := some 80,
    rpe := none, restSec := none, done := false }

def volSetB : SetRec :=
  { ex := "squat", set := 2, plannedReps := none, reps := some 5, load := none,
    rpe := none, restSec := none, done := false }

/-- Witness for C4 at concrete sets: both fields present, and load absent. -/
theorem setVolume_spec_witness :
    volSetA.reps = some 5 ∧ volSetA.load = some 80 ∧ setVolume volSetA = 5 * 80 ∧
    volSetB.load = none ∧ setVolume volSetB = 0 :=
  ⟨rfl, rfl, (setVolume_spec volSetA).1 5 80 rfl rfl, rfl,
    (setVolume_spec volSetB).2 (Or.inr rfl)⟩

/-- C3 (amended): estimatedOneRepMax equals load * (1 + reps/30) when
    both reps and load are present and non-zero, and is the explicit
    no-value `none` when either is absent or zero — in particular a
    recorded zero load yields "no data", not the value 0. -/
theorem estimatedOneRepMax_spec (s : SetRec) :
    (∀ r l : ℚ, s.reps = some r → s.load = some l → r ≠ 0 → l ≠ 0 →
      estimatedOneRepMax s = some (l * (1 + r / 30))) ∧
    ((s.reps = none ∨ s.load = none ∨ s.reps = some 0 ∨ s.load = some 0) →
      estimatedOneRepMax s = none) := by
  constructor
  · intro r l hr hl h0 h1
    simp [estimatedOneRepMax, hr, hl, h0, h1]
  · intro h
    rcases h with h | h | h | h
    · cases hl : s.load <;> simp [estimatedOneRepMax, h, hl]
    · cases hr : s.reps <;> simp [estimatedOneRepMax, h, hr]
    · cases hl : s.load <;> simp [estimatedOneRepMax, h, hl]
    · cases hr : s.reps <;> simp [estimatedOneRepMax, h, hr]

def zeroLoadSet : SetRec :=
  { ex := "bench", set := 1, plannedReps := none, reps := some 5, load := some 0,
    rpe := none, restSec := none, done := false }

/-- C3 counterexample: both reps and load are present but load is 0; the
    claim demands the distinguishable value `load * (1 + reps/30) = 0`,
    while the code's truthiness test returns the no-data marker instead. -/
theorem estimatedOneRepMax_zero_load_counterexample :
    zeroLoadSet.reps = some 5 ∧ zeroLoadSet.load = some 0 ∧
    estimatedOneRepMax zeroLoadSet = none ∧
    estimatedOneRepMax zeroLoadSet ≠ some ((0 : ℚ) * (1 + (5 : ℚ) / 30)) := by
  refine ⟨rfl, rfl, rfl, ?_⟩
  simp [estimatedOneRepMax, zeroLoadSet]

def e1rmSet : SetRec :=
  { ex := "bench", set := 1, plannedReps := none, reps := some 5, load := some 100,
    rpe := none, restSec := none, done := false }

def e1rmSetAbsent : SetRec :=
  { ex := "bench", set := 2, plannedReps := none, reps := none, load := some 100,
    rpe := none, restSec := none, done := false }

/-- Witness for C3 at concrete sets: both present and non-zero, and reps
    absent. -/
theorem estimatedOneRepMax_spec_witness :
    e1rmSet.reps = some 5 ∧ e1rmSet.load = some 100 ∧ (5 : ℚ) ≠ 0 ∧ (100 : ℚ) ≠ 0 ∧
    estimatedOneRepMax e1rmSet = some ((100 : ℚ) * (1 + (5 : ℚ) / 30)) ∧
    estimatedOneRepMax e1rmSetAbsent = none :=
  ⟨rfl, rfl, by norm_num, by norm_num,
    (estimatedOneRepMax_spec e1rmSet).1 5 100 rfl rfl (by norm_num) (by norm_num),
    (estimatedOneRepMax_spec e1rmSetAbsent).2 (Or.inl rfl)⟩

/-- C5: workoutVolume is the sum of setVolume over the workout's sets and
    is invariant under any permutation of the set sequence. -/
theorem workoutVolume_perm (w v : Workout) (h : w.sets.Perm v.sets) :
    workoutVolume w = (w.sets.map setVolume).sum ∧ workoutVolume w = workoutVolume v := by
  have key : ∀ u : Workout, workoutVolume u = (u.sets.map setVolume).sum := by
    intro u
    show u.sets.foldl (fun acc s => acc + setVolume s) 0 = _
    have aux : ∀ (l : List SetRec) (a : ℚ),
        l.foldl (fun acc s => acc + setVolume s) a = a + (l.map setVolume).sum := by
      intro l
      induction l with
      | nil => intro a; simp
      | cons x t ih => intro a; simp [ih, add_assoc]
    simpa using aux u.sets 0
  refine ⟨key w, ?_⟩
  rw [key w, key v]
  exact (h.map setVolume).sum_eq

def permWorkoutA : Workout :=
  { startedAt := 0, endedAt := none, notes := "", unit := "kg",
    sets := [volSetA, zeroLoadSet, e1rmSet] }

def permWorkoutB : Workout :=
  { startedAt := 0, endedAt := none, notes := "", unit := "kg",
    sets := [e1rmSet, volSetA, zeroLoadSet] }

/-- Witness for C5 at a concrete workout and a reordering of its sets. -/
theorem workoutVolume_perm_witness :
    permWorkoutA.sets.Perm permWorkoutB.sets ∧
    (workoutVolume permWorkoutA = (permWorkoutA.sets.map setVolume).sum ∧
      workoutVolume permWorkoutA = workoutVolume permWorkoutB) :=
  ⟨by decide, workoutVolume_perm permWorkoutA permWorkoutB (by decide)⟩

/-- C6: workoutDuration is the elapsed time in minutes rounded to one
    decimal place when endedAt is present (a value with a single decimal
    digit within 0.05 of the exact minute count), and the unknown marker
    `none` when endedAt is absent. -/
theorem workoutDuration_spec (w : Workout) :
    (w.endedAt = none → workoutDuration w = none) ∧
    (∀ e : ℤ, w.endedAt = some e →
      ∃ d : ℚ, workoutDuration w = some d ∧ (10 * d).den = 1 ∧
        |d - ((e : ℚ) - (w.startedAt : ℚ)) / 60000| ≤ 1 / 20) := by
  constructor
  · intro h; simp [workoutDuration, h]
  · intro e he
    set x : ℚ := ((e : ℚ) - (w.startedAt : ℚ)) / 60000 with hx
    refine ⟨round1 x, by simp [workoutDuration, he], ?_, ?_⟩
    · show ((10 : ℚ) * ((round (10 * x) : ℤ) / 10)).den = 1
      rw [mul_comm, div_mul_cancel₀ _ (by norm_num : (10 : ℚ) ≠ 0)]
      exact Rat.den_intCast _
    · have hdiff : round1 x - x = ((round (10 * x) : ℤ) - 10 * x) / 10 := by
        unfold round1; ring
      rw [hdiff, abs_div, abs_of_pos (by norm_num : (0 : ℚ) < 10), abs_sub_comm]
      have hb := abs_sub_round (10 * x)
      linarith

def timedWorkout : Workout :=
  { startedAt := 0, endedAt := some 90000, notes := "", unit := "kg", sets := [] }

/-- Witness for C6 at a concrete 90-second workout. -/
theorem workoutDuration_spec_witness :
    timedWorkout.endedAt = some 90000 ∧
    ∃ d : ℚ, workoutDuration timedWorkout = some d ∧ (10 * d).den = 1 ∧
      |d - (((90000 : ℤ) : ℚ) - ((timedWorkout.startedAt : ℤ) : ℚ)) / 60000| ≤ 1 / 20 :=
  ⟨rfl, (workoutDuration_spec timedWorkout).2 90000 rfl⟩

/-! ## Theorems for addSet default-fill (C2) -/

def restClearedSet : SetRec :=
  { ex := "squat", set := 1, plannedReps := none, reps := none, load := none,
    rpe := none, restSec := none, done := false }

def restClearedSess : Workout :=
  { startedAt := 0, endedAt := none, notes := "", unit := "kg", sets := [restClearedSet] }

/-- C2 counterexample: the session's most recent "squat" set exists and
    has restSec absent; the claim's inheritance clause then requires the
    appended set's restSec to be absent (the 60 default applying only
    when no prior set exists), but addSetToExercise stores 60. -/
theorem addSet_restSec_default_counterexample :
    (restClearedSess.sets.filter (fun s => s.ex == "squat")).getLast? = some restClearedSet ∧
    restClearedSet.restSec = none ∧
    ((addSetToExercise restClearedSess "squat").sets.getLast?.map SetRec.restSec) =
      some (some 60) ∧
    some (some (60 : ℚ)) ≠ (some none : Option (Option ℚ)) := by
  refine ⟨rfl, rfl, rfl, by simp⟩

/-- C2 (amended): addSet appends one set whose setNumber is the count of
    the session's existing sets for that exercise plus one, whose reps
    and rpe are absent and done is false; plannedReps and load are
    inherited from the most recently added set of the same exercise when
    that value is present and non-zero and are absent otherwise (no prior
    set, value absent, or value zero); restSec is inherited likewise but
    defaults to 60 in all other cases — when no prior set exists and also
    when the prior set's restSec is absent or zero. -/
theorem addSetToExercise_spec (sess : Workout) (exId : String) :
    ∃ ns : SetRec,
      (addSetToExercise sess exId).sets = sess.sets ++ [ns] ∧
      ns.ex = exId ∧
      ns.set = (sess.sets.filter (fun s => s.ex == exId)).length + 1 ∧
      ns.reps = none ∧ ns.rpe = none ∧ ns.done = false ∧
      ((sess.sets.filter (fun s => s.ex == exId)).getLast? = none →
        ns.plannedReps = none ∧ ns.load = none ∧ ns.restSec = some 60) ∧
      (∀ l : SetRec, (sess.sets.filter (fun s => s.ex == exId)).getLast? = some l →
        (∀ p : ℚ, l.plannedReps = some p → p ≠ 0 → ns.plannedReps = some p) ∧
        ((l.plannedReps = none ∨ l.plannedReps = some 0) → ns.plannedReps = none) ∧
        (∀ p : ℚ, l.load = some p → p ≠ 0 → ns.load = some p) ∧
        ((l.load = none ∨ l.load = some 0) → ns.load = none) ∧
        (∀ p : ℚ, l.restSec = some p → p ≠ 0 → ns.restSec = some p) ∧
        ((l.restSec = none ∨ l.restSec = some 0) → ns.restSec = some 60)) := by
  refine ⟨_, rfl, rfl, rfl, rfl, rfl, rfl, ?_, ?_⟩
  · intro h
    simp only [h, Option.bind_none, jsOrNull, restOrDefault]
    exact ⟨rfl, rfl, rfl⟩
  · intro l h
    simp only [h, Option.bind_some]
    refine ⟨?_, ?_, ?_, ?_, ?_, ?_⟩
    · intro p hp hp0; simp [jsOrNull, hp, hp0]
    · intro hp; rcases hp with hp | hp <;> simp [jsOrNull, hp]
    · intro p hp hp0; simp [jsOrNull, hp, hp0]
    · intro hp; rcases hp with hp | hp <;> simp [jsOrNull, hp]
    · intro p hp hp0; simp [restOrDefault, hp, hp0]
    · intro hp; rcases hp with hp | hp <;> simp [restOrDefault, hp]

def priorSet : SetRec :=
  { ex := "squat", set := 1, plannedReps := some 8, reps := none, load := some 80,
    rpe := none, restSec := some 90, done := false }

def priorSess : Workout :=
  { startedAt := 0, endedAt := none, notes := "", unit := "kg", sets := [priorSet] }

/-- Witness for C2: the spec's worked example — a prior squat set with
    plannedReps 8, load 80, restSec 90 yields a second set inheriting
    all three, with reps and rpe absent and setNumber 2. -/
theorem addSetToExercise_spec_witness :
    ∃ ns : SetRec,
      (addSetToExercise priorSess "squat").sets = priorSess.sets ++ [ns] ∧
      ns.set = 2 ∧ ns.plannedReps = some 8 ∧ ns.load = some 80 ∧ ns.restSec = some 90 ∧
      ns.reps = none ∧ ns.rpe = none ∧ ns.done = false := by
  obtain ⟨ns, hsets, hex, hnum, hreps, hrpe, hdone, hnone, hsome⟩ :=
    addSetToExercise_spec priorSess "squat"
  have hl : (priorSess.sets.filter (fun s => s.ex == "squat")).getLast? = some priorSet := by
    decide
  obtain ⟨hp, _, hld, _, hrs, _⟩ := hsome priorSet hl
  refine ⟨ns, hsets, ?_, hp 8 rfl (by norm_num), hld 80 rfl (by norm_num),
    hrs 90 rfl (by norm_num), hreps, hrpe, hdone⟩
  rw [hnum]
  decide

/-! ## Theorems for the recent-workouts query (C7) -/

/-- C7: on a profile whose workout entries are keyed by their startedAt
    timestamp (the reachable-state invariant), listRecent returns the n
    workouts with the greatest startedAt values, in descending startedAt
    order: the result has length min n (total), is sorted descending by
    startedAt, and the remaining entries all have startedAt at most that
    of every returned entry. -/
theorem listRecent_spec (ws : List (ℤ × Workout)) (n : ℕ)
    (hkey : ∀ kw ∈ ws, kw.1 = kw.2.startedAt) :
    (listRecent ws n).length = min n ws.length ∧
    List.Pairwise (fun a b : ℤ × Workout => b.2.startedAt ≤ a.2.startedAt) (listRecent ws n) ∧
    ∃ rest : List (ℤ × Workout), (listRecent ws n ++ rest).Perm ws ∧
      ∀ x ∈ listRecent ws n, ∀ y ∈ rest, y.2.startedAt ≤ x.2.startedAt := by
  simp only [listRecent]
  have hperm : (ws.mergeSort byKeyDesc).Perm ws := List.mergeSort_perm ws byKeyDesc
  have hmem : ∀ x ∈ ws.mergeSort byKeyDesc, x.1 = x.2.startedAt := by
    intro x hx
    exact hkey x (hperm.mem_iff.mp hx)
  have htrans : ∀ a b c : ℤ × Workout, byKeyDesc a b → byKeyDesc b c → byKeyDesc a c := by
    intro a b c hab hbc
    simp only [byKeyDesc, decide_eq_true_eq] at hab hbc ⊢
    omega
  have htotal : ∀ a b : ℤ × Workout, byKeyDesc a b || byKeyDesc b a := by
    intro a b
    simp only [byKeyDesc, Bool.or_eq_true, decide_eq_true_eq]
    omega
  have hpair : (ws.mergeSort byKeyDesc).Pairwise (fun a b => byKeyDesc a b = true) :=
    List.sorted_mergeSort htrans htotal ws
  refine ⟨?_, ?_, (ws.mergeSort byKeyDesc).drop n, ?_, ?_⟩
  · rw [List.length_take, hperm.length_eq]
  · refine List.Pairwise.imp_of_mem ?_
      (List.Pairwise.sublist (List.take_sublist n _) hpair)
    intro a b ha hb hab
    have ha2 := hmem a (List.mem_of_mem_take ha)
    have hb2 := hmem b (List.mem_of_mem_take hb)
    simp only [byKeyDesc, decide_eq_true_eq] at hab
    rw [← ha2, ← hb2]
    exact hab
  · rw [List.take_append_drop]
    exact hperm
  · intro x hx y hy
    have hpair2 : List.Pairwise (fun a b => byKeyDesc a b = true)
        (List.take n (ws.mergeSort byKeyDesc) ++ List.drop n (ws.mergeSort byKeyDesc)) := by
      rw [List.take_append_drop]
      exact hpair
    have hxy := (List.pairwise_append.mp hpair2).2.2 x hx y hy
    have hx2 := hmem x (List.mem_of_mem_take hx)
    have hy2 := hmem y (List.mem_of_mem_drop hy)
    simp only [byKeyDesc, decide_eq_true_eq] at hxy
    rw [← hx2, ← hy2]
    exact hxy

def demoWorkouts : List (ℤ × Workout) :=
  [(4, newSession 4), (1, newSession 1), (6, newSession 6), (2, newSession 2),
   (7, newSession 7), (3, newSession 3), (5, newSession 5)]

/-- Witness for C7: a profile with 7 workouts queried with n = 5, as in
    the spec's testable property. -/
theorem listRecent_spec_witness :
    (∀ kw ∈ demoWorkouts, kw.1 = kw.2.startedAt) ∧
    ((listRecent demoWorkouts 5).length = min 5 demoWorkouts.length ∧
      List.Pairwise (fun a b : ℤ × Workout => b.2.startedAt ≤ a.2.startedAt)
        (listRecent demoWorkouts 5) ∧
      ∃ rest : List (ℤ × Workout), (listRecent demoWorkouts 5 ++ rest).Perm demoWorkouts ∧
        ∀ x ∈ listRecent demoWorkouts 5, ∀ y ∈ rest, y.2.startedAt ≤ x.2.startedAt) :=
  ⟨by decide, listRecent_spec demoWorkouts 5 (by decide)⟩

/-! ## Lifecycle invariants (C9, C10) -/

/-- Every workout-mapping entry is keyed by its workout's startedAt. -/
def workoutsKeyInv (st : AppState) : Prop :=
  ∀ kw ∈ st.profile.workouts, kw.1 = kw.2.startedAt

lemma setEntry_mem {α β : Type} [DecidableEq α] {l : List (α × β)} {k : α} {v : β}
    {p : α × β} (hp : p ∈ setEntry l k v) : p = (k, v) ∨ p ∈ l := by
  induction l with
  | nil => simpa [setEntry] using hp
  | cons q t ih =>
    by_cases hq : q.1 = k
    · simp only [setEntry, if_pos hq, List.mem_cons] at hp
      rcases hp with h | h
      · exact Or.inl h
      · exact Or.inr (List.mem_cons_of_mem q h)
    · simp only [setEntry, if_neg hq, List.mem_cons] at hp
      rcases hp with h | h
      · exact Or.inr (by rw [h]; exact List.mem_cons_self q t)
      · rcases ih h with h2 | h2
        · exact Or.inl h2
        · exact Or.inr (List.mem_cons_of_mem q h2)

lemma foldl_step_inv {P : AppState → Prop}
    (hstep : ∀ st op, P st → P (step st op)) :
    ∀ (ops : List Op) (st : AppState), P st → P (ops.foldl step st) := by
  intro ops
  induction ops with
  | nil => intro st h; simpa using h
  | cons op t ih =>
    intro st h
    exact ih (step st op) (hstep st op h)

lemma step_workouts_eq (st : AppState) (op : Op) (hop : ∀ now : ℤ, op ≠ Op.finish now) :
    (step st op).profile.workouts = st.profile.workouts := by
  cases op with
  | start now => rfl
  | addExercise name =>
    by_cases h : name = ""
    · simp [step, h]
    · cases hs : st.session <;> simp [step, h, hs] <;> split <;> rfl
  | addSet exId => cases hs : st.session <;> simp [step, hs]
  | updateField i f input => cases hs : st.session <;> simp [step, hs]
  | mark i d => cases hs : st.session <;> simp [step, hs]
  | finish now => exact absurd rfl (hop now)
  | cancel => rfl

lemma step_workoutsKeyInv {st : AppState} (op : Op) (h : workoutsKeyInv st) :
    workoutsKeyInv (step st op) := by
  by_cases hf : ∀ now : ℤ, op ≠ Op.finish now
  · intro kw hkw
    rw [step_workouts_eq st op hf] at hkw
    exact h kw hkw
  · push_neg at hf
    obtain ⟨now, rfl⟩ := hf
    cases hs : st.session with
    | none => simpa [step, hs] using h
    | some sess =>
      intro kw hkw
      simp only [step, hs] at hkw
      rcases setEntry_mem hkw with h2 | h2
      · subst h2; rfl
      · exact h kw h2

/-- C9: in every state reachable from the empty profile through the
    lifecycle operations, each workout-mapping entry is keyed by its
    workout's startedAt, and every operation other than finish leaves the
    workout mapping untouched (so workouts appear only at finish, never
    before). -/
theorem workouts_key_invariant (ops : List Op) :
    workoutsKeyInv (run ops) ∧
    (∀ st : AppState, ∀ op : Op, (∀ now : ℤ, op ≠ Op.finish now) →
      (step st op).profile.workouts = st.profile.workouts) := by
  constructor
  · exact foldl_step_inv (fun st op h => step_workoutsKeyInv op h) ops initState
      (by intro kw hkw; simp [initState] at hkw)
  · exact step_workouts_eq

def demoOps : List Op :=
  [Op.start 100, Op.addExercise "Back Squat", Op.updateField 0 FieldId.reps "5",
   Op.updateField 0 FieldId.load "80", Op.mark 0 true, Op.addSet "back-squat",
   Op.finish 200, Op.start 300, Op.cancel]

def demoState : AppState := run [Op.start 100, Op.addExercise "Back Squat", Op.finish 200]

/-- Witness for C9: a concrete action trace, plus a concrete non-finish
    step on a concrete state. -/
theorem workouts_key_invariant_witness :
    workoutsKeyInv (run demoOps) ∧
    (step demoState Op.cancel).profile.workouts = demoState.profile.workouts :=
  ⟨(workouts_key_invariant demoOps).1,
    (workouts_key_invariant demoOps).2 demoState Op.cancel (by intro now h; cases h)⟩

/-- No numeric field of a set holds a stored zero. -/
def cleanSet (s : SetRec) : Prop :=
  s.plannedReps ≠ some 0 ∧ s.reps ≠ some 0 ∧ s.load ≠ some 0 ∧
  s.rpe ≠ some 0 ∧ s.restSec ≠ some 0

/-- Every set in the active session and in every committed workout is
    clean. -/
def cleanState (st : AppState) : Prop :=
  (∀ sess : Workout, st.session = some sess → ∀ s ∈ sess.sets, cleanSet s) ∧
  (∀ kw ∈ st.profile.workouts, ∀ s ∈ kw.2.sets, cleanSet s)

lemma jsOrNull_ne_zero (v : Option ℚ) : jsOrNull v ≠ some 0 := by
  cases v with
  | none => simp [jsOrNull]
  | some x =>
    by_cases h : x = 0 <;> simp [jsOrNull, h]

lemma restOrDefault_ne_zero (o : Option ℚ) : restOrDefault o ≠ 0 := by
  cases o with
  | none => norm_num [restOrDefault]
  | some x =>
    by_cases h : x = 0
    · simp only [restOrDefault, if_pos h]
      norm_num
    · simpa only [restOrDefault, if_neg h] using h

lemma parseField_ne_zero (f : FieldId) (input : String) : parseField f input ≠ some 0 := by
  cases f <;> exact jsOrNull_ne_zero _

lemma addSetToExercise_clean {sess : Workout} (h : ∀ s ∈ sess.sets, cleanSet s)
    (exId : String) : ∀ s ∈ (addSetToExercise sess exId).sets, cleanSet s := by
  intro s hs
  simp only [addSetToExercise, List.mem_append, List.mem_singleton] at hs
  rcases hs with hs | hs
  · exact h s hs
  · subst hs
    refine ⟨jsOrNull_ne_zero _, by simp, jsOrNull_ne_zero _, by simp, ?_⟩
    simp only [ne_eq, Option.some_inj]
    exact restOrDefault_ne_zero _

lemma setFieldVal_clean {s : SetRec} (h : cleanSet s) {f : FieldId} {v : Option ℚ}
    (hv : v ≠ some 0) : cleanSet (setFieldVal s f v) := by
  obtain ⟨h1, h2, h3, h4, h5⟩ := h
  cases f with
  | plannedReps => exact ⟨hv, h2, h3, h4, h5⟩
  | reps => exact ⟨h1, hv, h3, h4, h5⟩
  | load => exact ⟨h1, h2, hv, h4, h5⟩
  | rpe => exact ⟨h1, h2, h3, hv, h5⟩
  | restSec => exact ⟨h1, h2, h3, h4, hv⟩

lemma updateSetField_clean {sess : Workout} (h : ∀ s ∈ sess.sets, cleanSet s)
    (i : ℕ) (f : FieldId) (input : String) :
    ∀ s ∈ (updateSetField sess i f input).sets, cleanSet s := by
  intro s hs
  unfold updateSetField at hs
  cases hg : sess.sets.get? i with
  | none =>
    rw [hg] at hs
    exact h s hs
  | some s0 =>
    rw [hg] at hs
    simp only at hs
    rcases List.mem_or_eq_of_mem_set hs with h2 | h2
    · exact h s h2
    · subst h2
      exact setFieldVal_clean (h s0 (List.get?_mem hg)) (parseField_ne_zero f input)

lemma markDone_clean {sess : Workout} (h : ∀ s ∈ sess.sets, cleanSet s)
    (i : ℕ) (d : Bool) : ∀ s ∈ (markDone sess i d).sets, cleanSet s := by
  intro s hs
  unfold markDone at hs
  cases hg : sess.sets.get? i with
  | none =>
    rw [hg] at hs
    exact h s hs
  | some s0 =>
    rw [hg] at hs
    simp only at hs
    rcases List.mem_or_eq_of_mem_set hs with h2 | h2
    · exact h s h2
    · subst h2
      obtain ⟨h1, h2, h3, h4, h5⟩ := h s0 (List.get?_mem hg)
      exact ⟨h1, h2, h3, h4, h5⟩

set_option linter.unnecessarySimpa false in
lemma step_clean {st : AppState} (op : Op) (h : cleanState st) : cleanState (step st op) := by
  obtain ⟨hsess, hw⟩ := h
  cases op with
  | start now =>
    refine ⟨?_, by simpa [step] using hw⟩
    intro sess hs s hs2
    simp only [step, Option.some_inj] at hs
    subst hs
    simp [newSession] at hs2
  | addExercise name =>
    by_cases hn : name = ""
    · exact ⟨by simpa [step, hn] using hsess, by simpa [step, hn] using hw⟩
    · cases hs : st.session with
      | none =>
        refine ⟨?_, ?_⟩
        · intro sess hs2 s hs3
          simp [step, hn, hs] at hs2
        · intro kw hkw
          apply hw
          have := step_workouts_eq st (Op.addExercise name) (by intro now hne; cases hne)
          rw [this] at hkw
          exact hkw
      | some sess =>
        refine ⟨?_, ?_⟩
        · intro sess2 hs2 s hs3
          simp only [step, if_neg hn, hs, Option.some_inj] at hs2
          subst hs2
          exact addSetToExercise_clean (hsess sess hs) (normalizeId name) s hs3
        · intro kw hkw
          apply hw
          have := step_workouts_eq st (Op.addExercise name) (by intro now hne; cases hne)
          rw [this] at hkw
          exact hkw
  | addSet exId =>
    cases hs : st.session with
    | none => exact ⟨by simpa [step, hs] using hsess, by simpa [step, hs] using hw⟩
    | some sess =>
      refine ⟨?_, by simpa [step, hs] using hw⟩
      intro sess2 hs2 s hs3
      simp only [step, hs, Option.some_inj] at hs2
      subst hs2
      exact addSetToExercise_clean (hsess sess hs) exId s hs3
  | updateField i f input =>
    cases hs : st.session with
    | none => exact ⟨by simpa [step, hs] using hsess, by simpa [step, hs] using hw⟩
    | some sess =>
      refine ⟨?_, by simpa [step, hs] using hw⟩
      intro sess2 hs2 s hs3
      simp only [step, hs, Option.some_inj] at hs2
      subst hs2
      exact updateSetField_clean (hsess sess hs) i f input s hs3
  | mark i d =>
    cases hs : st.session with
    | none => exact ⟨by simpa [step, hs] using hsess, by simpa [step, hs] using hw⟩
    | some sess =>
      refine ⟨?_, by simpa [step, hs] using hw⟩
      intro sess2 hs2 s hs3
      simp only [step, hs, Option.some_inj] at hs2
      subst hs2
      exact markDone_clean (hsess sess hs) i d s hs3
  | finish now =>
    cases hs : st.session with
    | none => exact ⟨by simpa [step, hs] using hsess, by simpa [step, hs] using hw⟩
    | some sess =>
      refine ⟨?_, ?_⟩
      · intro sess2 hs2 s hs3
        simp [step, hs] at hs2
      · intro kw hkw
        simp only [step, hs] at hkw
        rcases setEntry_mem hkw with h2 | h2
        · subst h2
          intro s hs3
          exact hsess sess hs s hs3
        · exact hw kw h2
  | cancel =>
    refine ⟨?_, by simpa [step] using hw⟩
    intro sess hs2 s hs3
    simp [step] at hs2

lemma fieldGet_setFieldVal (s : SetRec) (f : FieldId) (v : Option ℚ) :
    fieldGet f (setFieldVal s f v) = v := by
  cases f <;> rfl

lemma parseField_zero_input (f : FieldId) : parseField f "0" = none := by
  have h1 : parseIntJS "0" = some 0 := by decide
  have h2 : parseFloatJS "0" = some 0 := by decide
  cases f <;> simp [parseField, h1, h2, jsOrNull]

/-- C10: editing any numeric field of a set with the input "0" stores the
    field as absent (the `|| null` coercion), and consequently no state
    reachable from the empty profile through the lifecycle operations
    contains a set — in the active session or in any committed workout —
    whose plannedReps, reps, load, rpe, or restSec is a stored 0 (addSet
    converts an inherited 0 to absent, or to 60 for restSec). -/
theorem no_zero_fields_invariant (ops : List Op) :
    cleanState (run ops) ∧
    (∀ sess : Workout, ∀ i : ℕ, ∀ f : FieldId, i < sess.sets.length →
      ∃ s2 : SetRec, (updateSetField sess i f "0").sets.get? i = some s2 ∧
        fieldGet f s2 = none) := by
  constructor
  · refine foldl_step_inv (fun st op h => step_clean op h) ops initState ⟨?_, ?_⟩
    · intro sess hs s hs2
      simp [initState] at hs
    · intro kw hkw
      simp [initState] at hkw
  · intro sess i f hi
    have hg : sess.sets.get? i = some (sess.sets.get ⟨i, hi⟩) := List.get?_eq_get hi
    refine ⟨setFieldVal (sess.sets.get ⟨i, hi⟩) f (parseField f "0"), ?_, ?_⟩
    · unfold updateSetField
      simp only [hg]
      rw [List.get?_eq_getElem?, List.getElem?_set_eq_of_lt]
      exact hi
    · rw [fieldGet_setFieldVal, parseField_zero_input]

def zeroEditSess : Workout :=
  { startedAt := 0, endedAt := none, notes := "", unit := "kg", sets := [priorSet] }

/-- Witness for C10: a concrete trace, and a concrete "0" edit of the
    reps field on a one-set session. -/
theorem no_zero_fields_invariant_witness :
    cleanState (run demoOps) ∧
    0 < zeroEditSess.sets.length ∧
    (∃ s2 : SetRec, (updateSetField zeroEditSess 0 FieldId.reps "0").sets.get? 0 = some s2 ∧
      fieldGet FieldId.reps s2 = none) :=
  ⟨(no_zero_fields_invariant demoOps).1, by decide,
    (no_zero_fields_invariant demoOps).2 zeroEditSess 0 FieldId.reps (by decide)⟩

/-! ## Theorems for the storage and import layers (C1, C8) -/

lemma find?_setEntry_self (l : List (String × JSValue)) (k : String) (v : JSValue) :
    (setEntry l k v).find? (fun p => p.1 == k) = some (k, v) := by
  induction l with
  | nil => simp [setEntry]
  | cons p t ih =>
    by_cases h : p.1 = k
    · simp [setEntry, h]
    · simp [setEntry, h, ih]

lemma getField_obj_setEntry (l : List (String × JSValue)) (k : String) (v : JSValue) :
    getField (JSValue.obj (setEntry l k v)) k = v := by
  simp [getField, find?_setEntry_self]

def importCurrent : JSValue :=
  .obj [("profiles", .obj [("me",
    .obj [("exercises", .obj []),
          ("workouts", .obj [("2025-01-01T00:00:00Z", .obj [])])])])]

def invalidDoc : JSValue := .obj [("exercises", .obj [])]

/-- C1 counterexample: the current root holds a profile with one workout;
    the imported document parses but has no workouts mapping, failing the
    claimed structural validation — yet the handler replaces the active
    profile with it and reports success, so the profile's workouts are no
    longer what they were before the call. -/
theorem importApply_accepts_invalid_doc :
    getField invalidDoc "workouts" = JSValue.undefined ∧
    importApply importCurrent (some invalidDoc) =
      (JSValue.obj [("profiles", .obj [("me", invalidDoc)])], true) ∧
    getField (getField (getField (importApply importCurrent (some invalidDoc)).1
      "profiles") "me") "workouts" = JSValue.undefined :=
  ⟨rfl, rfl, rfl⟩

/-- C1 (amended): the import handler rejects a document only when it
    fails to parse as JSON (or when the root's profiles container is
    nullish, making the assignment itself throw inside the same
    try/catch); on rejection the state is unchanged and the failure
    alert is surfaced. Any successfully parsed document — structurally
    valid or not — replaces the active profile wholesale and the success
    alert is reported. -/
theorem importApply_parse_gate (d : JSValue) (fl pf : List (String × JSValue))
    (hd : d = JSValue.obj fl) (hp : getField d "profiles" = JSValue.obj pf) :
    importApply d none = (d, false) ∧
    (∀ v : JSValue, (importApply d (some v)).2 = true ∧
      getField (getField (importApply d (some v)).1 "profiles") "me" = v) := by
  subst hd
  refine ⟨rfl, ?_⟩
  intro v
  simp only [importApply, hp]
  exact ⟨trivial, by rw [getField_obj_setEntry, getField_obj_setEntry]⟩

def demoRoot : JSValue := .obj [("profiles", .obj [])]

/-- Witness for C1 at a concrete root with an object profiles field. -/
theorem importApply_parse_gate_witness :
    demoRoot = JSValue.obj [("profiles", .obj [])] ∧
    getField demoRoot "profiles" = JSValue.obj [] ∧
    (importApply demoRoot none = (demoRoot, false) ∧
      (∀ v : JSValue, (importApply demoRoot (some v)).2 = true ∧
        getField (getField (importApply demoRoot (some v)).1 "profiles") "me" = v)) :=
  ⟨rfl, rfl, importApply_parse_gate demoRoot [("profiles", .obj [])] [] rfl rfl⟩

def initRoot : JSValue := .obj [("profiles", .obj [("me", emptyProfileJS)])]

/-- C8 evaluation: loadData recovers — producing the freshly initialized
    root with the active profile present — when the stored content is
    missing or empty, when parsing throws, and when the parse result is
    falsy; but stored content that parses to a truthy value without a
    profiles mapping (such as the well-formed document produced by the
    string of an empty object, or a bare number) makes loadData throw a
    TypeError to its caller instead of falling back, contradicting the
    claim that load never fails. -/
theorem loadData_spec_violation :
    loadData (some (some (JSValue.obj []))) = none ∧
    loadData (some (some (JSValue.num 42))) = none ∧
    loadData none = some initRoot ∧
    loadData (some none) = some initRoot ∧
    loadData (some (some JSValue.null)) = some initRoot ∧
    loadData (some (some (JSValue.obj [("profiles", JSValue.obj [])]))) = some initRoot :=
  ⟨rfl, rfl, rfl, rfl, rfl, rfl⟩

end WorkoutTracker
